import Mathlib

set_option maxRecDepth 100000

/-!
Verification of the Von Neumann computer simulator repository.

Part 1 embeds the state and the commands of the web simulator class
`VonNeumannComputer` from `src/von-neumann.js`: the 256-cell memory, the
cpu record `{ pc, registers: {A, B, C}, running }`, the file-system map,
and the command handlers `resetComputer`, `runDemo`, `showStatus`,
`updateStatus` and `createFile`.  DOM and audio side effects of the
source are represented as the list of text lines a handler emits, paired
with the (possibly updated) machine state.

Part 2 models the stored-program machine of the specification (sections
3-5 and 7 of the spec).  The fetch-decode-execute core (`step`, `run`,
the ALU, the loader and the instruction encoding) is not implemented in
the sources under `src/` -- the web code only declares the memory array
and the register record and never executes instructions (the README
points to a Python backend, `main_interface.py`, which is not part of
`src/`).  Those definitions are therefore modelled from the spec, and
each carries a doc comment saying so.

Part 3 embeds the chatroom store of the `VonNeuAI` class.
-/

namespace VonNeu

/-- Register record of the cpu object: `registers: { A: 0, B: 0, C: 0 }`. -/
structure Registers where
  A : Nat
  B : Nat
  C : Nat
deriving Repr, DecidableEq

/-- The cpu record `{ pc: 0, registers: ..., running: false }`. -/
structure CPU where
  pc : Nat
  registers : Registers
  running : Bool
deriving Repr, DecidableEq

/-- State of the `VonNeumannComputer` class: the 256-cell memory array,
the cpu record and the file-system map (modelled as an association list
from file name to content, in insertion order, as a JS `Map`). -/
structure Computer where
  memory : List Nat
  cpu : CPU
  fileSystem : List (String × String)
deriving Repr, DecidableEq

/-- `this.fileSystem.has(filename)` on the association-list model. -/
def fsHas (fs : List (String × String)) (name : String) : Bool :=
  fs.any (fun p => p.1 == name)

/-- `this.fileSystem.set(filename, content)`: update in place when the key
exists, append otherwise (JS `Map` keeps insertion order). -/
def fsSet (fs : List (String × String)) (name content : String) :
    List (String × String) :=
  if fsHas fs name then
    fs.map (fun p => if p.1 == name then (name, content) else p)
  else
    fs ++ [(name, content)]

/-- `this.fileSystem.get(filename)` (`none` when absent). -/
def fsGet (fs : List (String × String)) (name : String) : Option String :=
  (fs.find? (fun p => p.1 == name)).map Prod.snd

/-- Embeds `initializeFileSystem` of `src/von-neumann.js`: the five files
installed at construction time.  The long file bodies are irrelevant to
every claim; they are kept as opaque-to-the-proofs string constants with
the same file names as the source. -/
def initFileSystem : List (String × String) :=
  [("readme.txt", "Welcome to your retro computer!"),
   ("hello.asm", "; Hello World Program LOAD A, #72 OUTPUT A HALT"),
   ("tutorial.txt", "=== VON NEUMANN ARCHITECTURE TUTORIAL ==="),
   ("samples.txt", "=== SAMPLE PROGRAMS ==="),
   ("fibonacci.py", "# Fibonacci Calculator")]

/-- The constructor of `VonNeumannComputer`:
`this.memory = new Array(256).fill(0)`,
`this.cpu = { pc: 0, registers: { A: 0, B: 0, C: 0 }, running: false }`,
then `initializeFileSystem()`. -/
def newComputer : Computer :=
  { memory := List.replicate 256 0
    cpu := { pc := 0, registers := { A := 0, B := 0, C := 0 }, running := false }
    fileSystem := initFileSystem }

/-- Display text used by `showStatus` and `updateStatus`:
`this.cpu.running ? "RUNNING" : "READY"`. -/
def cpuStateText (running : Bool) : String :=
  if running then "RUNNING" else "READY"

/-- Embeds `resetComputer`: replaces the cpu record by a fresh one and
zero-fills the memory array in place (`this.memory.fill(0)` keeps the
array length). -/
def resetComputer (c : Computer) : Computer × List String :=
  ({ c with
      cpu := { pc := 0, registers := { A := 0, B := 0, C := 0 }, running := false }
      memory := List.replicate c.memory.length 0 },
   ["Computer reset!"])

/-- Embeds `runDemo`: prints two messages and assigns
`this.cpu.registers.A = 15; ...B = 27; ...C = 42`.  Nothing else of the
state is touched: no memory write, no change of `pc` or `running`. -/
def runDemo (c : Computer) : Computer × List String :=
  ({ c with cpu := { c.cpu with registers := { A := 15, B := 27, C := 42 } } },
   ["Demo: Adding 15 + 27 = 42", "Program executed! Result: 42"])

/-- Embeds `showStatus`: prints the cpu state and the file count, reads
`this.cpu.running` and `this.fileSystem.size`, writes nothing. -/
def showStatus (c : Computer) : Computer × List String :=
  (c, ["=== STATUS ===",
       "CPU: " ++ cpuStateText c.cpu.running,
       "Files: " ++ toString c.fileSystem.length])

/-- One hexadecimal digit, lower case, as in JS `toString(16)`. -/
def hexDigit (n : Nat) : Char :=
  if n < 10 then Char.ofNat (48 + n) else Char.ofNat (87 + n)

/-- Digits of `n` in base 16, most significant first (fuel-driven). -/
def hexCharsAux : Nat → Nat → List Char
  | 0, _ => []
  | fuel + 1, n => if n = 0 then [] else hexCharsAux fuel (n / 16) ++ [hexDigit (n % 16)]

/-- JS `n.toString(16)` for a natural number. -/
def toHexString (n : Nat) : String :=
  if n = 0 then "0" else String.mk (hexCharsAux n n)

/-- JS `s.padStart(len, "0")`. -/
def padStart (s : String) (len : Nat) : String :=
  String.mk (List.replicate (len - s.length) (Char.ofNat 48)) ++ s

/-- Embeds `updateStatus`: renders `pc`, `A`, `B`, `C` in padded hex and
the cpu state into the DOM status fields; it only reads the cpu record
and assigns to DOM text, so the machine state is returned unchanged. -/
def updateStatus (c : Computer) : Computer × List String :=
  (c, [padStart (toHexString c.cpu.pc) 4,
       padStart (toHexString c.cpu.registers.A) 2,
       padStart (toHexString c.cpu.registers.B) 2,
       padStart (toHexString c.cpu.registers.C) 2,
       cpuStateText c.cpu.running])

/-- Embeds `createFile(args)`: usage message when `args[0]` is missing or
empty (JS falsiness), a warning without any mutation when the file
already exists, otherwise `this.fileSystem.set(filename, "")`. -/
def createFile (c : Computer) (args : List String) : Computer × List String :=
  match args with
  | [] => (c, ["Usage: create <filename>"])
  | filename :: _ =>
    if filename = "" then
      (c, ["Usage: create <filename>"])
    else if fsHas c.fileSystem filename then
      (c, ["File " ++ filename ++ " already exists!"])
    else
      ({ c with fileSystem := fsSet c.fileSystem filename "" },
       ["SUCCESS: File " ++ filename ++ " created!"])

end VonNeu

namespace VonNeu

/-! ## Part 2: the stored-program machine of the specification

None of the following executable core exists in the sources under
`src/`; it is modelled from the spec (sections 3, 4, 5 and 7), and used
to settle the claims about Fetch/Load/Store bounds, the ALU, decoding,
determinism of step/run, and the cycle-budget watchdog. -/

/-- Fault taxonomy of spec section 7. -/
inductive Fault where
  | outOfBounds
  | invalidOpcode
  | ioUnavailable
  | programTooLarge
deriving Repr, DecidableEq

/-- Modelled from the spec: Memory contract `read(addr) -> byte |
Fault(OutOfBounds)` of section 4.1 (not implemented in `src/`; the web
code only allocates the array).  An address outside `0 <= addr <
capacity` is a fault and is never wrapped. -/
def memRead (mem : List Nat) (addr : Nat) : Except Fault Nat :=
  if addr < mem.length then .ok (mem.getD addr 0) else .error .outOfBounds

/-- Modelled from the spec: Memory contract `write(addr, byte) ->
Fault(OutOfBounds)?` of section 4.1 (not implemented in `src/`). -/
def memWrite (mem : List Nat) (addr v : Nat) : Except Fault (List Nat) :=
  if addr < mem.length then .ok (mem.set addr v) else .error .outOfBounds

/-- Largest register value: registers are one byte wide (the boot banner
reports `256 BYTES` of memory and cells are bytes), so arithmetic is
modulo 256. -/
def maxValue : Nat := 255

/-- Result of an ALU operation: value plus the Zero and Carry/Overflow
flags (spec section 4.2). -/
structure ALUResult where
  value : Nat
  zero : Bool
  overflow : Bool
deriving Repr, DecidableEq

/-- Modelled from the spec: `ADD(a,b)` wraps modulo the register width,
sets Overflow on wraparound and Zero when the result is 0; it cannot
fault. -/
def aluAdd (a b : Nat) : ALUResult :=
  { value := (a + b) % 256
    zero := decide ((a + b) % 256 = 0)
    overflow := decide (256 ≤ a % 256 + b % 256) }

/-- Modelled from the spec: `SUB(a,b)` computed as two's-complement
addition of the negation, wrapping modulo the register width; Overflow
is the borrow flag, Zero is set when the result is 0. -/
def aluSub (a b : Nat) : ALUResult :=
  { value := (a % 256 + (256 - b % 256)) % 256
    zero := decide ((a % 256 + (256 - b % 256)) % 256 = 0)
    overflow := decide (a % 256 < b % 256) }

/-- One of the three general-purpose registers. -/
inductive Reg where
  | A
  | B
  | C
deriving Repr, DecidableEq

/-- Operand of a LOAD: immediate value or direct memory address. -/
inductive Operand where
  | imm (v : Nat)
  | addr (a : Nat)
deriving Repr, DecidableEq

/-- Decoded instruction triple of spec section 4.3 (the closed tagged
union of design note 2). -/
inductive Instr where
  | load (dst : Reg) (src : Operand)
  | store (src : Reg) (a : Nat)
  | add (dst a b : Reg)
  | sub (dst a b : Reg)
  | jump (a : Nat)
  | jumpz (a : Nat)
  | output (src : Reg)
  | input (dst : Reg)
  | halt
deriving Repr, DecidableEq

/-- Status flags of the Register File (spec section 3). -/
structure Flags where
  zero : Bool
  overflow : Bool
deriving Repr, DecidableEq

/-- Control-Unit status: still stepping through the fetch-decode-execute
loop, or in one of the two terminal states of spec section 4.3. -/
inductive MachineStatus where
  | stepping
  | halted
  | faulted (f : Fault)
deriving Repr, DecidableEq

/-- Modelled from the spec: the simulator state -- unified memory,
Program Counter, registers, flags, control status, cycle counter and the
two I/O port buffers. -/
structure Machine where
  mem : List Nat
  pc : Nat
  regs : Registers
  flags : Flags
  status : MachineStatus
  cycles : Nat
  outBuf : List Nat
  inBuf : List Nat
deriving Repr, DecidableEq

/-- Register read. -/
def getReg (regs : Registers) : Reg → Nat
  | .A => regs.A
  | .B => regs.B
  | .C => regs.C

/-- Register write. -/
def setReg (regs : Registers) : Reg → Nat → Registers
  | .A, v => { regs with A := v }
  | .B, v => { regs with B := v }
  | .C, v => { regs with C := v }

/-- Decode a register-field value (0 = A, 1 = B, 2 = C); any other field
value is a decode failure. -/
def decodeReg (n : Nat) : Except Fault Reg :=
  if n = 0 then .ok .A
  else if n = 1 then .ok .B
  else if n = 2 then .ok .C
  else .error .invalidOpcode

/-- Modelled from the spec: the fixed two-cell instruction word layout of
spec sections 3 and 6.  Cell 0 holds `opcode * 16 + mode * 4 + reg`,
cell 1 holds the operand (an immediate, an address, or for ADD/SUB the
pair `a * 4 + b` of source-register fields).  Opcodes: 0 LOAD, 1 STORE,
2 ADD, 3 SUB, 4 JUMP, 5 JUMPZ, 6 OUTPUT, 7 INPUT, 8 HALT; every other
opcode value decodes to `InvalidOpcode` (spec section 4.3, Decode). -/
def decode (c0 c1 : Nat) : Except Fault Instr :=
  if c0 / 16 = 0 then
    match decodeReg (c0 % 4) with
    | .error f => .error f
    | .ok dst =>
      if c0 / 4 % 4 = 0 then .ok (.load dst (.imm c1))
      else if c0 / 4 % 4 = 1 then .ok (.load dst (.addr c1))
      else .error .invalidOpcode
  else if c0 / 16 = 1 then
    match decodeReg (c0 % 4) with
    | .error f => .error f
    | .ok src => .ok (.store src c1)
  else if c0 / 16 = 2 then
    match decodeReg (c0 % 4), decodeReg (c1 / 4), decodeReg (c1 % 4) with
    | .ok dst, .ok a, .ok b => .ok (.add dst a b)
    | _, _, _ => .error .invalidOpcode
  else if c0 / 16 = 3 then
    match decodeReg (c0 % 4), decodeReg (c1 / 4), decodeReg (c1 % 4) with
    | .ok dst, .ok a, .ok b => .ok (.sub dst a b)
    | _, _, _ => .error .invalidOpcode
  else if c0 / 16 = 4 then .ok (.jump c1)
  else if c0 / 16 = 5 then .ok (.jumpz c1)
  else if c0 / 16 = 6 then
    match decodeReg (c0 % 4) with
    | .error f => .error f
    | .ok src => .ok (.output src)
  else if c0 / 16 = 7 then
    match decodeReg (c0 % 4) with
    | .error f => .error f
    | .ok dst => .ok (.input dst)
  else if c0 / 16 = 8 then .ok .halt
  else .error .invalidOpcode

/-- Bus transactions an instruction needs: the fetch plus one data
access for memory-operand instructions (spec sections 3 and 4.5). -/
def busCost : Instr → Nat
  | .load _ (.addr _) => 2
  | .store _ _ => 2
  | _ => 1

/-- Transition into the terminal Faulted state. -/
def toFault (m : Machine) (f : Fault) : Machine :=
  { m with status := .faulted f }

/-- Modelled from the spec: the Execute/Writeback dispatch of spec
section 4.3.  LOAD/STORE/JUMP/JUMPZ fault on out-of-range addresses via
`memRead`/`memWrite`; ADD/SUB wrap and update flags; HALT enters the
terminal Halted state; INPUT faults when the port has no value. -/
def exec (m : Machine) : Instr → Machine
  | .load dst (.imm v) => { m with regs := setReg m.regs dst (v % 256) }
  | .load dst (.addr a) =>
    match memRead m.mem a with
    | .error f => toFault m f
    | .ok v => { m with regs := setReg m.regs dst v }
  | .store src a =>
    match memWrite m.mem a (getReg m.regs src) with
    | .error f => toFault m f
    | .ok mem2 => { m with mem := mem2 }
  | .add dst a b =>
    let r := aluAdd (getReg m.regs a) (getReg m.regs b)
    { m with regs := setReg m.regs dst r.value
             flags := { zero := r.zero, overflow := r.overflow } }
  | .sub dst a b =>
    let r := aluSub (getReg m.regs a) (getReg m.regs b)
    { m with regs := setReg m.regs dst r.value
             flags := { zero := r.zero, overflow := r.overflow } }
  | .jump a =>
    if a < m.mem.length then { m with pc := a } else toFault m .outOfBounds
  | .jumpz a =>
    if m.flags.zero then
      if a < m.mem.length then { m with pc := a } else toFault m .outOfBounds
    else m
  | .output src => { m with outBuf := m.outBuf ++ [getReg m.regs src] }
  | .input dst =>
    match m.inBuf with
    | [] => toFault m .ioUnavailable
    | v :: rest => { m with regs := setReg m.regs dst (v % 256), inBuf := rest }
  | .halt => { m with status := .halted }

/-- Modelled from the spec: one full fetch-decode-execute-writeback
round of the Control Unit (spec section 4.3).  The two terminal states
absorb: stepping a Halted or Faulted machine changes nothing.  The fetch
reads the two word cells at `pc` through the bounds-checked Memory
contract, the PC is advanced past the word unconditionally (jumps
override it in `exec`), and the cycle counter advances by the number of
bus transactions the instruction consumes. -/
def step (m : Machine) : Machine :=
  match m.status with
  | .halted => m
  | .faulted _ => m
  | .stepping =>
    match memRead m.mem m.pc with
    | .error f => { m with status := .faulted f, cycles := m.cycles + 1 }
    | .ok c0 =>
      match memRead m.mem (m.pc + 1) with
      | .error f => { m with status := .faulted f, cycles := m.cycles + 1 }
      | .ok c1 =>
        match decode c0 c1 with
        | .error f => { m with status := .faulted f, cycles := m.cycles + 1 }
        | .ok i => exec { m with pc := m.pc + 2, cycles := m.cycles + busCost i } i

/-- Modelled from the spec: `run` is a bounded loop of steps with an
explicit budget (spec section 5); it stops early in a terminal state and
otherwise performs at most `budget` steps, so it always terminates. -/
def run : Machine → Nat → Machine
  | m, 0 => m
  | m, b + 1 =>
    match m.status with
    | .stepping => run (step m) b
    | _ => m

/-- Outcome classification of a `run`: Halted and Faulted are the
terminal results; a machine still stepping when the budget ran out is
Suspended, which is resumable (spec sections 5 and 7). -/
inductive RunResult where
  | halted
  | faulted (f : Fault)
  | suspended
deriving Repr, DecidableEq

/-- Result reported by `run`, read off the final machine status. -/
def runResult (m : Machine) : RunResult :=
  match m.status with
  | .halted => .halted
  | .faulted f => .faulted f
  | .stepping => .suspended

/-- Modelled from the spec: the Loader contract of spec section 4.4 --
validate the size against the 256-cell capacity (`ProgramTooLarge`
otherwise), write the bytes at address 0, zero-fill the rest of Memory
and fully reset the Register File, PC at entry 0, cycle counter 0. -/
def load (prog : List Nat) : Except Fault Machine :=
  if prog.length ≤ 256 then
    .ok { mem := prog ++ List.replicate (256 - prog.length) 0
          pc := 0
          regs := { A := 0, B := 0, C := 0 }
          flags := { zero := false, overflow := false }
          status := .stepping
          cycles := 0
          outBuf := []
          inBuf := [] }
  else
    .error .programTooLarge

end VonNeu

namespace VonNeu

/-! ## Part 3: the VonNeuAI chatroom store (src/unnamed/part_003) -/

/-- One stored exchange: `{ user, assistant, timestamp }`. -/
structure Exchange where
  user : String
  assistant : String
  timestamp : String
deriving Repr, DecidableEq

/-- State of the `VonNeuAI` class that the chatroom commands touch: the
room store (a JS object keyed by room name, modelled as an association
list in key-insertion order) and the current-room pointer. -/
structure VonNeuAI where
  chatrooms : List (String × List Exchange)
  currentRoom : String
deriving Repr, DecidableEq

/-- `this.chatrooms[roomName]` considered as an existence test (a stored
room is always an array, which is truthy in JS even when empty). -/
def roomsHas (rooms : List (String × List Exchange)) (name : String) : Bool :=
  rooms.any (fun p => p.1 == name)

/-- `delete this.chatrooms[roomName]` on the association-list model. -/
def roomsErase (rooms : List (String × List Exchange)) (name : String) :
    List (String × List Exchange) :=
  rooms.filter (fun p => ! (p.1 == name))

/-- Embeds `VonNeuAI.initializeChatSystem`: if the restored current room
does not exist in the store, create it as an empty room
(`this.chatrooms[this.currentRoom] = []`). -/
def initChatSystem (ai : VonNeuAI) : VonNeuAI :=
  if roomsHas ai.chatrooms ai.currentRoom then ai
  else { ai with chatrooms := ai.chatrooms ++ [(ai.currentRoom, [])] }

/-- Embeds `VonNeuAI.deleteRoom`: refuse when at most one room remains or
when the named room does not exist; otherwise remove it, and when the
current room was removed, point `currentRoom` at `Object.keys(...)[0]`,
the first remaining room.  Returns the updated state and the boolean the
method returns. -/
def deleteRoom (ai : VonNeuAI) (roomName : String) : VonNeuAI × Bool :=
  if ai.chatrooms.length ≤ 1 then (ai, false)
  else if ¬ roomsHas ai.chatrooms roomName then (ai, false)
  else
    let rooms2 := roomsErase ai.chatrooms roomName
    let current2 :=
      if ai.currentRoom == roomName then (rooms2.headD ("", [])).1
      else ai.currentRoom
    ({ chatrooms := rooms2, currentRoom := current2 }, true)

/-- Invariant of the chatroom store: at least one room, the current room
names an existing room, and room keys are distinct (a JS object cannot
hold a duplicate key). -/
def aiInvariant (ai : VonNeuAI) : Prop :=
  ai.chatrooms ≠ [] ∧
  roomsHas ai.chatrooms ai.currentRoom = true ∧
  (ai.chatrooms.map Prod.fst).Nodup

end VonNeu

namespace VonNeu

/-! ## Theorems for the claims settled against the web code -/

/-- C1: the claim as stated is false on the code.  The demo command of
`src/von-neumann.js` assigns only the three registers; on the freshly
constructed machine, memory cell 2 afterwards holds 0, not 42. -/
theorem runDemo_memory_claim_false :
    ¬ ((runDemo newComputer).fst.cpu.registers.C = 42 ∧
       ((runDemo newComputer).fst.memory).getD 2 0 = 42) := by
  decide

/-- C1 (amended): `runDemo` sets registers A, B, C to 15, 27, 42 and
leaves the memory, the program counter and the running flag exactly as
they were; in particular no memory cell is written and no halted
condition is entered. -/
theorem runDemo_effect (c : Computer) :
    (runDemo c).fst.cpu.registers = { A := 15, B := 27, C := 42 } ∧
    (runDemo c).fst.memory = c.memory ∧
    (runDemo c).fst.cpu.pc = c.cpu.pc ∧
    (runDemo c).fst.cpu.running = c.cpu.running :=
  ⟨rfl, rfl, rfl, rfl⟩

/-- C3: `resetComputer` fully re-initializes the machine: the memory is
zero-filled cell by cell (keeping its length), the program counter is 0,
registers A, B, C are 0 and the cpu is not running; nothing of the
previous cpu record survives because the whole record is replaced. -/
theorem resetComputer_full_reset (c : Computer) :
    (resetComputer c).fst.memory = List.replicate c.memory.length 0 ∧
    (∀ i, i < (resetComputer c).fst.memory.length →
      ((resetComputer c).fst.memory).getD i 1 = 0) ∧
    (resetComputer c).fst.cpu.pc = 0 ∧
    (resetComputer c).fst.cpu.registers = { A := 0, B := 0, C := 0 } ∧
    (resetComputer c).fst.cpu.running = false := by
  refine ⟨rfl, ?_, rfl, rfl, rfl⟩
  intro i hi
  rw [List.getD_eq_getElem _ _ hi]
  simp [resetComputer]

/-- Witness for C3 at a concrete dirty state: resetting the machine the
demo just ran zeroes memory cell 2 and register C. -/
theorem resetComputer_full_reset_witness :
    ((resetComputer (runDemo newComputer).fst).fst.memory).getD 2 1 = 0 ∧
    (resetComputer (runDemo newComputer).fst).fst.cpu.registers =
      { A := 0, B := 0, C := 0 } := by
  have h := resetComputer_full_reset (runDemo newComputer).fst
  exact ⟨h.2.1 2 (by decide), h.2.2.2.1⟩

/-- C8: the inspection commands `showStatus` and `updateStatus` are
read-only observers: for every machine state they return the state
unchanged, so the program counter, registers, running flag and every
memory cell are untouched. -/
theorem inspection_readonly (c : Computer) :
    (showStatus c).fst = c ∧ (updateStatus c).fst = c :=
  ⟨rfl, rfl⟩

/-- C9: creating a file whose name already exists leaves the whole state
-- in particular that file's stored content and the rest of the file
system -- exactly as it was. -/
theorem createFile_existing_preserves (c : Computer) (filename : String)
    (rest : List String) (h : fsHas c.fileSystem filename = true) :
    (createFile c (filename :: rest)).fst = c ∧
    fsGet (createFile c (filename :: rest)).fst.fileSystem filename =
      fsGet c.fileSystem filename := by
  have hfst : (createFile c (filename :: rest)).fst = c := by
    by_cases he : filename = ""
    · simp [createFile, he]
    · simp [createFile, he, h]
  exact ⟨hfst, by rw [hfst]⟩

/-- Witness for C9: `create readme.txt` on the fresh machine, whose file
system already holds `readme.txt`, changes nothing. -/
theorem createFile_existing_preserves_witness :
    (createFile newComputer ["readme.txt"]).fst = newComputer :=
  (createFile_existing_preserves newComputer "readme.txt" [] (by decide)).1

/-- C2: memory is created with a fixed capacity of 256 cells; the Memory
contract answers every in-range address and faults with OutOfBounds on
every address at or beyond the capacity, for reads and writes alike --
an out-of-range access is never wrapped to a valid cell -- and a fetch
whose program counter is out of range drives the machine into the
Faulted(OutOfBounds) state. -/
theorem memory_access_bounds (mem : List Nat) (addr v : Nat) :
    (mem.length ≤ addr →
      memRead mem addr = .error .outOfBounds ∧
      memWrite mem addr v = .error .outOfBounds) ∧
    (addr < mem.length →
      memRead mem addr = .ok (mem.getD addr 0) ∧
      memWrite mem addr v = .ok (mem.set addr v)) ∧
    newComputer.memory.length = 256 ∧
    (∀ m : Machine, m.status = .stepping → m.mem.length ≤ m.pc →
      (step m).status = .faulted .outOfBounds) := by
  refine ⟨?_, ?_, by simp [newComputer], ?_⟩
  · intro hge
    constructor <;> simp [memRead, memWrite, Nat.not_lt.mpr hge]
  · intro hlt
    constructor <;> simp [memRead, memWrite, hlt]
  · intro m hs hge
    simp [step, hs, memRead, Nat.not_lt.mpr hge]

/-- Witness for C2: address 300 on the fresh 256-cell memory faults on
read and write, and address 2 reads back its cell. -/
theorem memory_access_bounds_witness :
    (memRead newComputer.memory 300 = .error .outOfBounds ∧
     memWrite newComputer.memory 300 7 = .error .outOfBounds) ∧
    memRead newComputer.memory 2 = .ok 0 := by
  refine ⟨(memory_access_bounds newComputer.memory 300 7).1 (by decide), ?_⟩
  have h := ((memory_access_bounds newComputer.memory 2 7).2.1 (by decide)).1
  simpa using h

end VonNeu

namespace VonNeu

/-! ## Theorems for the spec-modelled machine core -/

/-- C5: ALU arithmetic wraps modulo the register width and cannot fault:
`ADD(max_value, 1)` yields 0 with Overflow set, `SUB(0, 1)` yields
`max_value` with Overflow set, the Zero flag is set exactly when the
result is 0, and every result stays inside the register width. -/
theorem alu_wraparound (a b : Nat) :
    (aluAdd maxValue 1).value = 0 ∧
    (aluAdd maxValue 1).overflow = true ∧
    (aluSub 0 1).value = maxValue ∧
    (aluSub 0 1).overflow = true ∧
    ((aluAdd a b).zero = true ↔ (aluAdd a b).value = 0) ∧
    ((aluSub a b).zero = true ↔ (aluSub a b).value = 0) ∧
    (aluAdd a b).value < 256 ∧
    (aluSub a b).value < 256 := by
  refine ⟨by decide, by decide, by decide, by decide, ?_, ?_, ?_, ?_⟩
  · simp [aluAdd]
  · simp [aluSub]
  · exact Nat.mod_lt _ (by decide)
  · exact Nat.mod_lt _ (by decide)

/-- Stepping a machine that is already in a terminal state (Halted or
Faulted) changes nothing. -/
theorem step_terminal (m : Machine) (h : ¬ m.status = .stepping) :
    step m = m := by
  cases hst : m.status with
  | stepping => exact absurd hst h
  | halted => simp [step, hst]
  | faulted f => simp [step, hst]

/-- A terminal machine is a fixed point of `run` for every budget. -/
theorem run_terminal (m : Machine) (h : ¬ m.status = .stepping) :
    ∀ k, run m k = m := by
  intro k
  cases k with
  | zero => rfl
  | succ b =>
    cases hst : m.status with
    | stepping => exact absurd hst h
    | halted => simp [run, hst]
    | faulted f => simp [run, hst]

/-- `run` with budget N is exactly the N-fold iterate of `step`. -/
theorem run_eq_iterate (N : Nat) : ∀ m : Machine, run m N = step^[N] m := by
  induction N with
  | zero => intro m; rfl
  | succ b ih =>
    intro m
    rw [Function.iterate_succ_apply]
    by_cases hst : m.status = .stepping
    · have hrun : run m (b + 1) = run (step m) b := by simp [run, hst]
      rw [hrun]
      exact ih (step m)
    · rw [step_terminal m hst, run_terminal m hst (b + 1), ← ih m,
        run_terminal m hst b]

/-- C4: execution is deterministic: applying `step` N times yields
exactly the final Register File, Memory and cycle count that a single
`run` with budget N yields, for every machine state and every N. -/
theorem run_matches_repeated_step (m : Machine) (N : Nat) :
    (run m N).regs = (step^[N] m).regs ∧
    (run m N).mem = (step^[N] m).mem ∧
    (run m N).cycles = (step^[N] m).cycles := by
  rw [run_eq_iterate N m]
  exact ⟨rfl, rfl, rfl⟩

/-- An opcode field outside the instruction set decodes to the
InvalidOpcode fault. -/
theorem decode_invalid (c0 c1 : Nat) (h : 9 ≤ c0 / 16) :
    decode c0 c1 = .error .invalidOpcode := by
  unfold decode
  have hne : ∀ k, k ≤ 8 → ¬ c0 / 16 = k := by omega
  rw [if_neg (hne 0 (by omega)), if_neg (hne 1 (by omega)),
      if_neg (hne 2 (by omega)), if_neg (hne 3 (by omega)),
      if_neg (hne 4 (by omega)), if_neg (hne 5 (by omega)),
      if_neg (hne 6 (by omega)), if_neg (hne 7 (by omega)),
      if_neg (hne 8 (by omega))]

/-- C6: fetching a word whose opcode field is not in the fixed
instruction set drives the machine into the terminal
Faulted(InvalidOpcode) state, and no number of further steps changes the
machine again -- only a fresh load (or reset) can leave that state. -/
theorem unknown_opcode_faults (m : Machine) (c0 c1 : Nat)
    (hs : m.status = .stepping)
    (h0 : memRead m.mem m.pc = .ok c0)
    (h1 : memRead m.mem (m.pc + 1) = .ok c1)
    (hop : 9 ≤ c0 / 16) :
    (step m).status = .faulted .invalidOpcode ∧
    ∀ k, step^[k] (step m) = step m := by
  have hstep : step m =
      { m with status := .faulted .invalidOpcode, cycles := m.cycles + 1 } := by
    simp [step, hs, h0, h1, decode_invalid c0 c1 hop]
  refine ⟨by rw [hstep], ?_⟩
  intro k
  apply Function.iterate_fixed
  apply step_terminal
  rw [hstep]
  simp

/-- Concrete two-cell memory whose first word carries opcode 9, which is
outside the instruction set. -/
def badOpcodeMachine : Machine :=
  { mem := [144, 0]
    pc := 0
    regs := { A := 0, B := 0, C := 0 }
    flags := { zero := false, overflow := false }
    status := .stepping
    cycles := 0
    outBuf := []
    inBuf := [] }

/-- Witness for C6: stepping the machine holding opcode value 9 lands in
Faulted(InvalidOpcode). -/
theorem unknown_opcode_faults_witness :
    (step badOpcodeMachine).status = .faulted .invalidOpcode :=
  (unknown_opcode_faults badOpcodeMachine 144 0 rfl rfl rfl (by decide)).1

/-- The two-cell `JUMP 0` program of the spec scenario. -/
def jumpProg : List Nat := [64, 0]

/-- The machine obtained by loading `jumpProg`, after `k` consumed
cycles: still at PC 0, still stepping. -/
def jumpMachine (k : Nat) : Machine :=
  { mem := jumpProg ++ List.replicate 254 0
    pc := 0
    regs := { A := 0, B := 0, C := 0 }
    flags := { zero := false, overflow := false }
    status := .stepping
    cycles := k
    outBuf := []
    inBuf := [] }

/-- Loading the `JUMP 0` program succeeds and yields the zero-cycle jump
machine. -/
theorem load_jumpProg : load jumpProg = .ok (jumpMachine 0) := rfl

/-- One step of the jump machine consumes one cycle and returns to the
same configuration. -/
theorem step_jumpMachine (k : Nat) : step (jumpMachine k) = jumpMachine (k + 1) := by
  with_unfolding_all rfl

/-- Running the jump machine with budget b consumes exactly b cycles. -/
theorem run_jumpMachine (b : Nat) :
    ∀ k, run (jumpMachine k) b = jumpMachine (k + b) := by
  induction b with
  | zero => intro k; rfl
  | succ n ih =>
    intro k
    have h1 : run (jumpMachine k) (n + 1) = run (step (jumpMachine k)) n := rfl
    rw [h1, step_jumpMachine, ih (k + 1)]
    congr 1
    omega

/-- C7: `run` is a bounded loop of steps: on the never-halting `JUMP 0`
program a budget of 1000 returns Suspended -- not a fault -- with
exactly 1000 cycles consumed and the PC back at 0, and a further
`run 1000` resumes from that suspended state, reaching 2000 total
cycles, rather than restarting. -/
theorem jump_loop_suspends :
    load jumpProg = .ok (jumpMachine 0) ∧
    runResult (run (jumpMachine 0) 1000) = .suspended ∧
    (run (jumpMachine 0) 1000).cycles = 1000 ∧
    (run (jumpMachine 0) 1000).pc = 0 ∧
    run (run (jumpMachine 0) 1000) 1000 = jumpMachine 2000 ∧
    (run (run (jumpMachine 0) 1000) 1000).cycles = 2000 := by
  have h1 : run (jumpMachine 0) 1000 = jumpMachine 1000 := run_jumpMachine 1000 0
  have h2 : run (jumpMachine 1000) 1000 = jumpMachine 2000 := run_jumpMachine 1000 1000
  refine ⟨load_jumpProg, ?_, ?_, ?_, ?_, ?_⟩
  · rw [h1]; rfl
  · rw [h1]; rfl
  · rw [h1]; rfl
  · rw [h1]
    exact h2
  · rw [h1, h2]; rfl

end VonNeu

namespace VonNeu

/-! ## Theorems for the chatroom store -/

/-- Membership reading of the room-existence test. -/
theorem roomsHas_iff (rooms : List (String × List Exchange)) (name : String) :
    roomsHas rooms name = true ↔ ∃ p ∈ rooms, p.1 = name := by
  simp [roomsHas]

/-- With at least two rooms and distinct keys, erasing one name leaves
some room behind. -/
theorem roomsErase_ne_nil (rooms : List (String × List Exchange)) (name : String)
    (hlen : 1 < rooms.length) (hnodup : (rooms.map Prod.fst).Nodup) :
    roomsErase rooms name ≠ [] := by
  match rooms, hlen with
  | a :: b :: t, _ =>
    simp only [List.map_cons, List.nodup_cons, List.mem_cons] at hnodup
    have hab : a.1 ≠ b.1 := fun he => hnodup.1 (Or.inl he)
    by_cases ha : a.1 = name
    · have hb : (! (b.1 == name)) = true := by
        simp only [Bool.not_eq_eq_eq_not, Bool.not_true, beq_eq_false_iff_ne, ne_eq]
        intro he
        exact hab (ha.trans he.symm)
      exact List.ne_nil_of_mem (List.mem_filter.mpr ⟨by simp, hb⟩)
    · have ha2 : (! (a.1 == name)) = true := by
        simp only [Bool.not_eq_eq_eq_not, Bool.not_true, beq_eq_false_iff_ne, ne_eq]
        exact ha
      exact List.ne_nil_of_mem (List.mem_filter.mpr ⟨by simp, ha2⟩)

/-- The key of the first room of a nonempty store exists in the store. -/
theorem roomsHas_headD (rooms : List (String × List Exchange))
    (h : rooms ≠ []) : roomsHas rooms (rooms.headD ("", [])).1 = true := by
  cases rooms with
  | nil => exact absurd rfl h
  | cons x xs => simp [roomsHas]

/-- Erasing one name keeps every other existing key in the store. -/
theorem roomsHas_roomsErase (rooms : List (String × List Exchange))
    (name cur : String) (hne : cur ≠ name)
    (h : roomsHas rooms cur = true) :
    roomsHas (roomsErase rooms name) cur = true := by
  rw [roomsHas_iff] at h ⊢
  obtain ⟨p, hp, hpk⟩ := h
  refine ⟨p, List.mem_filter.mpr ⟨hp, ?_⟩, hpk⟩
  simp only [Bool.not_eq_eq_eq_not, Bool.not_true, beq_eq_false_iff_ne, ne_eq]
  rw [hpk]
  exact hne

/-- Erasing a room keeps the keys distinct. -/
theorem roomsErase_nodup (rooms : List (String × List Exchange)) (name : String)
    (h : (rooms.map Prod.fst).Nodup) :
    ((roomsErase rooms name).map Prod.fst).Nodup :=
  h.sublist ((List.filter_sublist rooms).map Prod.fst)

/-- C10: the chatroom store keeps its invariant -- at least one room,
the current room names an existing room, distinct keys: `deleteRoom`
preserves it (moving the current-room pointer to the first remaining
room when the current room is deleted), refuses to delete the last
remaining room, and `initializeChatSystem` establishes the invariant
from any restored store with distinct keys. -/
theorem chatroom_store_invariant (ai rst : VonNeuAI) (roomName : String)
    (h : aiInvariant ai)
    (hrst : (rst.chatrooms.map Prod.fst).Nodup) :
    aiInvariant (deleteRoom ai roomName).fst ∧
    (ai.chatrooms.length = 1 → deleteRoom ai roomName = (ai, false)) ∧
    aiInvariant (initChatSystem rst) := by
  obtain ⟨hne, hcur, hnodup⟩ := h
  refine ⟨?_, ?_, ?_⟩
  · unfold deleteRoom
    by_cases hlen : ai.chatrooms.length ≤ 1
    · simp only [hlen, if_true]
      exact ⟨hne, hcur, hnodup⟩
    · rw [if_neg hlen]
      push_neg at hlen
      by_cases hhas : roomsHas ai.chatrooms roomName = true
      · rw [if_neg (by simp [hhas])]
        have h2ne : roomsErase ai.chatrooms roomName ≠ [] :=
          roomsErase_ne_nil _ _ hlen hnodup
        have h2nodup : ((roomsErase ai.chatrooms roomName).map Prod.fst).Nodup :=
          roomsErase_nodup _ _ hnodup
        refine ⟨h2ne, ?_, h2nodup⟩
        by_cases hc : (ai.currentRoom == roomName) = true
        · simp only [hc, if_true]
          exact roomsHas_headD _ h2ne
        · simp only [hc, if_false, Bool.false_eq_true]
          refine roomsHas_roomsErase _ _ _ ?_ hcur
          simpa using hc
      · rw [if_pos (by simpa using hhas)]
        exact ⟨hne, hcur, hnodup⟩
  · intro hlen1
    unfold deleteRoom
    simp [hlen1]
  · unfold initChatSystem
    by_cases hh : roomsHas rst.chatrooms rst.currentRoom = true
    · simp only [hh, if_true]
      refine ⟨?_, hh, hrst⟩
      obtain ⟨p, hp, -⟩ := (roomsHas_iff _ _).mp hh
      exact List.ne_nil_of_mem hp
    · simp only [hh, if_false, Bool.false_eq_true]
      refine ⟨by simp, ?_, ?_⟩
      · rw [roomsHas_iff]
        exact ⟨(rst.currentRoom, []), by simp, rfl⟩
      · have hnotin : rst.currentRoom ∉ rst.chatrooms.map Prod.fst := by
          intro hmem
          obtain ⟨p, hp, hpk⟩ := List.mem_map.mp hmem
          exact hh ((roomsHas_iff _ _).mpr ⟨p, hp, hpk⟩)
        simp [List.nodup_append, hrst, hnotin]

/-- Store with two rooms, the current one first. -/
def demoAI : VonNeuAI :=
  { chatrooms := [("general", []), ("hardware", [])], currentRoom := "general" }

/-- Store holding only its last room. -/
def soloAI : VonNeuAI :=
  { chatrooms := [("general", [])], currentRoom := "general" }

/-- Witness for C10: deleting the current room of a two-room store keeps
the invariant, and deleting the only room of a one-room store is refused
without change. -/
theorem chatroom_store_invariant_witness :
    aiInvariant (deleteRoom demoAI "general").fst ∧
    deleteRoom soloAI "general" = (soloAI, false) := by
  constructor
  · exact (chatroom_store_invariant demoAI demoAI "general"
      ⟨by decide, by decide, by decide⟩ (by decide)).1
  · exact (chatroom_store_invariant soloAI soloAI "general"
      ⟨by decide, by decide, by decide⟩ (by decide)).2.1 (by decide)

end VonNeu
